import Mathlib

/-!
Shallow embedding of `lib/utapi/utilities.js` (Scality S3): the metrics
query CLI (`listMetrics` / `_listMetrics`) and the usage-event push adapter
(`pushMetric`).  JavaScript strings become `String`, JS numbers produced by
`Number.parseInt` become `Int` (`Option Int` with `none` for `NaN`),
commander option values (string or `undefined`) become `Option String`, and
JS objects serialized by `JSON.stringify` become a `Json` inductive whose
object fields are an insertion-ordered association list.
-/

namespace Utapi

/-- JSON values as produced/consumed by the tool.  Object fields keep JS
insertion order, which is what `JSON.stringify` follows for string keys. -/
inductive Json where
  | null
  | bool (b : Bool)
  | num (n : Int)
  | str (s : String)
  | arr (items : List Json)
  | obj (fields : List (String × Json))
deriving Repr

/-- Lower-case hex digit, used for `\u00XX` control-character escapes. -/
def hexDigit (n : Nat) : String :=
  String.singleton (if n < 10 then Char.ofNat (48 + n) else Char.ofNat (87 + n))

/-- Escape of a single character inside a JSON string literal, following
`JSON.stringify` (quote, backslash, the short control escapes, `\u00XX`
for other control characters, everything else verbatim). -/
def quoteJsonChar (c : Char) : String :=
  if c = '"' then "\\\""
  else if c = '\\' then "\\\\"
  else if c = '\x08' then "\\b"
  else if c = '\x09' then "\\t"
  else if c = '\x0a' then "\\n"
  else if c = '\x0c' then "\\f"
  else if c = '\x0d' then "\\r"
  else if c.toNat < 32 then "\\u00" ++ hexDigit (c.toNat / 16) ++ hexDigit (c.toNat % 16)
  else String.singleton c

/-- A JSON string literal with surrounding quotes, as `JSON.stringify` emits it. -/
def quoteJson (s : String) : String :=
  "\"" ++ String.join (s.toList.map quoteJsonChar) ++ "\""

mutual

/-- Compact serialization, modelling `JSON.stringify(value)` (no space argument):
no whitespace, object fields in insertion order. -/
def stringifyVal : Json → String
  | .null => "null"
  | .bool b => if b then "true" else "false"
  | .num n => toString n
  | .str s => quoteJson s
  | .arr items => "[" ++ stringifyItems items ++ "]"
  | .obj fields => "\x7b" ++ stringifyFields fields ++ "\x7d"

/-- Comma-separated serialization of array elements. -/
def stringifyItems : List Json → String
  | [] => ""
  | [x] => stringifyVal x
  | x :: y :: xs => stringifyVal x ++ "," ++ stringifyItems (y :: xs)

/-- Comma-separated serialization of object members. -/
def stringifyFields : List (String × Json) → String
  | [] => ""
  | [(k, v)] => quoteJson k ++ ":" ++ stringifyVal v
  | (k, v) :: f :: fs => quoteJson k ++ ":" ++ stringifyVal v ++ "," ++ stringifyFields (f :: fs)

end

/-- `2 * d` spaces: the indentation prefix at nesting depth `d` for the
pretty printer with a gap of two spaces. -/
def mkIndent (d : Nat) : String :=
  String.mk (List.replicate (2 * d) ' ')

mutual

/-- Pretty serialization at nesting depth `d`, modelling
`JSON.stringify(value, null, 2)`: members one per line, indented two spaces
per depth level, `": "` after keys, empty containers kept inline. -/
def stringifyIndentVal (d : Nat) : Json → String
  | .null => "null"
  | .bool b => if b then "true" else "false"
  | .num n => toString n
  | .str s => quoteJson s
  | .arr [] => "[]"
  | .arr (x :: xs) =>
      "[\n" ++ stringifyIndentItems (d + 1) (x :: xs) ++ "\n" ++ mkIndent d ++ "]"
  | .obj [] => "\x7b\x7d"
  | .obj (f :: fs) =>
      "\x7b\n" ++ stringifyIndentFields (d + 1) (f :: fs) ++ "\n" ++ mkIndent d ++ "\x7d"

/-- Array elements of the pretty serialization, one per line at depth `d`. -/
def stringifyIndentItems (d : Nat) : List Json → String
  | [] => ""
  | [x] => mkIndent d ++ stringifyIndentVal d x
  | x :: y :: xs =>
      mkIndent d ++ stringifyIndentVal d x ++ ",\n" ++ stringifyIndentItems d (y :: xs)

/-- Object members of the pretty serialization, one per line at depth `d`. -/
def stringifyIndentFields (d : Nat) : List (String × Json) → String
  | [] => ""
  | [(k, v)] => mkIndent d ++ quoteJson k ++ ": " ++ stringifyIndentVal d v
  | (k, v) :: f :: fs =>
      mkIndent d ++ quoteJson k ++ ": " ++ stringifyIndentVal d v ++ ",\n" ++
        stringifyIndentFields d (f :: fs)

end

/-- Top-level pretty serialization: `JSON.stringify(value, null, 2)`. -/
def stringifyIndent (j : Json) : String :=
  stringifyIndentVal 0 j

/-- JS property assignment `obj[k] = v` on an insertion-ordered field list:
overwrite in place if the key exists, otherwise append at the end. -/
def setField (fields : List (String × Json)) (k : String) (v : Json) :
    List (String × Json) :=
  if fields.any (fun p => p.fst = k) then
    fields.map (fun p => if p.fst = k then (k, v) else p)
  else
    fields ++ [(k, v)]

/-- `String.prototype.split(',')` on the character list: split at every
comma, keeping empty segments; on the empty string it yields one empty
segment, matching JS (`''.split(',') === ['']`). -/
def splitCommaAux : List Char → List (List Char)
  | [] => [[]]
  | c :: cs =>
    if c = ',' then [] :: splitCommaAux cs
    else
      match splitCommaAux cs with
      | [] => [[c]]
      | h :: t => (c :: h) :: t

/-- `s.split(',')` as used for the `commander[metric]` resource string. -/
def jsSplitComma (s : String) : List String :=
  (splitCommaAux s.toList).map (fun l => String.mk l)

/-- The whitespace characters `Number.parseInt` skips before reading digits
(the common ASCII ones plus no-break space). -/
def isJsSpace (c : Char) : Bool :=
  c = ' ' || c = '\x09' || c = '\x0a' || c = '\x0b' || c = '\x0c' ||
    c = '\x0d' || c = '\xa0'

/-- Value of a non-empty run of decimal digit characters. -/
def digitsToNat (ds : List Char) : Nat :=
  ds.foldl (fun acc c => acc * 10 + (c.toNat - 48)) 0

/-- `Number.parseInt(s, 10)`: skip leading whitespace, optional sign, then
the longest prefix of decimal digits; `none` models the `NaN` result when no
digit follows. -/
def jsParseInt10 (s : String) : Option Int :=
  match s.toList.dropWhile isJsSpace with
  | '-' :: rest =>
      let ds := rest.takeWhile Char.isDigit
      if ds.isEmpty then none else some (-(digitsToNat ds : Int))
  | '+' :: rest =>
      let ds := rest.takeWhile Char.isDigit
      if ds.isEmpty then none else some ((digitsToNat ds : Int))
  | cs =>
      let ds := cs.takeWhile Char.isDigit
      if ds.isEmpty then none else some ((digitsToNat ds : Int))

/-- JS truthiness of a commander option value: `undefined` and the empty
string are falsy, every other string is truthy. -/
def truthy : Option String → Bool
  | none => false
  | some s => !s.isEmpty

/-- The commander option values `listMetrics` destructures: string-valued
options are `Option String` (`none` = not supplied), boolean flags are
`Bool`.  The source's `end` option is `endOpt` (`end` is reserved in Lean). -/
structure CommanderOpts where
  accessKey : Option String := none
  secretKey : Option String := none
  metric : Option String := none
  buckets : Option String := none
  accounts : Option String := none
  start : Option String := none
  endOpt : Option String := none
  host : Option String := none
  port : Option String := none
  ssl : Bool := false
  verbose : Bool := false
  recent : Bool := false
deriving Repr

/-- The ways `listMetrics` reaches `process.exit(1)` during validation,
each carrying what identifies the logged diagnostic. -/
inductive ExitReason where
  | metricInvalid
  | missingOption (name : String)
  | startNotNumber
  | endNotNumber
deriving Repr, DecidableEq

/-- The `logger.error` message printed for each validation failure. -/
def ExitReason.message : ExitReason → String
  | .metricInvalid => "metric must be buckets or accounts"
  | .missingOption name => "missing required option: " ++ name
  | .startNotNumber => "start must be a number"
  | .endNotNumber => "end must be a number"

/-- Every validation failure terminates the process with exit code 1. -/
def ExitReason.exitCode : ExitReason → Nat := fun _ => 1

/-- The request `_listMetrics` hands to the transport: the `options`
object's fields, the flags, and the `requestObj` field list written as the
body. -/
structure SentRequest where
  host : String
  port : String
  method : String
  path : String
  headers : List (String × String)
  rejectUnauthorized : Bool
  ssl : Bool
  recent : Bool
  timeRange : List Int
  resources : List String
  bodyFields : List (String × Json)
deriving Repr

/-- `request.write(JSON.stringify(requestObj))`: the body string actually
written to the transport. -/
def SentRequest.body (r : SentRequest) : String :=
  stringifyVal (.obj r.bodyFields)

/-- `_listMetrics`: builds the options object (`POST`,
`/{metric}?Action={listAction}`, fixed headers, `rejectUnauthorized:
false`), picks the action from `recent`, and builds `requestObj` as
`recent ? {} : { timeRange }` followed by `requestObj[metric] =
metricType`.  Signing (`auth.client.generateV4Headers`) is external and adds
no observable field modelled here; `metricType` is the resource list. -/
def listMetricsInner (host port metric : String) (metricType : List String)
    (timeRange : List Int) (accessKey secretKey : String)
    (verbose recent ssl : Bool) : SentRequest :=
  let listAction := if recent then "ListRecentMetrics" else "ListMetrics"
  let requestObj : List (String × Json) :=
    if recent then [] else [("timeRange", Json.arr (timeRange.map Json.num))]
  { host := host
    port := port
    method := "POST"
    path := "/" ++ metric ++ "?Action=" ++ listAction
    headers := [("content-type", "application/json"), ("cache-control", "no-cache")]
    rejectUnauthorized := false
    ssl := ssl
    recent := recent
    timeRange := timeRange
    resources := metricType
    bodyFields := setField requestObj metric (Json.arr (metricType.map Json.str)) }

/-- `const metric = metricType === 'buckets' ? 'buckets' : commander.metric;`
(the `getD ""` default is unreachable once the metric validity check has
passed). -/
def pickedMetric (metricType : Option String) (c : CommanderOpts) : String :=
  if metricType = some "buckets" then "buckets" else c.metric.getD ""

/-- `commander[metric]`: the resource-list option selected by the metric
name. -/
def getMetricField (c : CommanderOpts) (metric : String) : Option String :=
  if metric = "buckets" then c.buckets
  else if metric = "accounts" then c.accounts
  else none

/-- The `requiredOptions` object in the order its keys are inserted:
`host`, `port`, `accessKey`, `secretKey`, then `metric` in generic mode,
then the resource option named by the metric, then `start` unless
`--recent`. -/
def requiredList (metricType : Option String) (c : CommanderOpts)
    (metric : String) : List (String × Option String) :=
  [("host", c.host), ("port", c.port), ("accessKey", c.accessKey),
    ("secretKey", c.secretKey)]
  ++ (if metricType ≠ some "buckets" then [("metric", c.metric)] else [])
  ++ [(metric, getMetricField c metric)]
  ++ (if !c.recent then [("start", c.start)] else [])

/-- The `Object.keys(requiredOptions).forEach` loop: the first falsy value
exits the process, so the result is the first failing option name. -/
def firstMissing : List (String × Option String) → Option String
  | [] => none
  | (name, v) :: rest => if truthy v then firstMissing rest else some name

/-- The `timeRange` construction: empty when `--recent`; otherwise
`Number.parseInt(start, 10)` must be truthy (`!numStart` rejects `NaN` and
`0`), and when `end` is truthy it must parse likewise. -/
def computeTimeRange (c : CommanderOpts) : Except ExitReason (List Int) :=
  if c.recent then .ok []
  else
    match jsParseInt10 (c.start.getD "") with
    | none => .error .startNotNumber
    | some numStart =>
      if numStart = 0 then .error .startNotNumber
      else
        if truthy c.endOpt then
          match jsParseInt10 (c.endOpt.getD "") with
          | none => .error .endNotNumber
          | some numEnd =>
            if numEnd = 0 then .error .endNotNumber
            else .ok [numStart, numEnd]
        else .ok [numStart]

/-- `listMetrics(metricType)` after commander parsing: metric validity check
(generic mode only), required-options check, timeRange validation, comma
split of the resource string, then the `_listMetrics` call.  `.error` is a
`process.exit(1)` before any request is constructed; `.ok` is the request
reaching the transport. -/
def listMetricsRun (metricType : Option String) (c : CommanderOpts) :
    Except ExitReason SentRequest :=
  if metricType ≠ some "buckets" ∧ c.metric ≠ some "buckets" ∧
      c.metric ≠ some "accounts" then
    .error .metricInvalid
  else
    match firstMissing (requiredList metricType c (pickedMetric metricType c)) with
    | some name => .error (.missingOption name)
    | none =>
      match computeTimeRange c with
      | .error e => .error e
      | .ok timeRange =>
        .ok (listMetricsInner (c.host.getD "") (c.port.getD "")
          (pickedMetric metricType c)
          (jsSplitComma ((getMetricField c (pickedMetric metricType c)).getD ""))
          timeRange (c.accessKey.getD "") (c.secretKey.getD "")
          c.verbose c.recent c.ssl)

/-- Terminal behaviour of the response `end` handler: `parseError` when
`JSON.parse` throws (uncaught, so neither branch runs), otherwise the
stdout writes plus exit code, or the error-log entry plus exit code. -/
inductive EndOutcome where
  | parseError
  | stdoutExit (writes : List String) (code : Nat)
  | logExit (statusCode : Nat) (body : Json) (code : Nat)
deriving Repr

/-- The `response.on('end', ...)` handler: `JSON.parse` runs on the joined
body first (its result is `parsed`, with `none` for a throw on invalid
JSON); only then is the status code compared against `[200, 300)` to pick
between pretty-printed stdout output with exit 0 and an error log with
exit 1. -/
def handleEnd (statusCode : Nat) (parsed : Option Json) : EndOutcome :=
  match parsed with
  | none => .parseError
  | some responseBody =>
    if 200 ≤ statusCode ∧ statusCode < 300 then
      .stdoutExit [stringifyIndent responseBody, "\n"] 0
    else
      .logExit statusCode responseBody 1

/-- The requester identity object; `getCanonicalID` is its canonical
account id accessor. -/
structure AuthInfo where
  canonicalID : String
deriving Repr

/-- `authInfo.getCanonicalID()`. -/
def AuthInfo.getCanonicalID (a : AuthInfo) : String := a.canonicalID

/-- The `metricObj` argument of `pushMetric`: every field optional,
`none` modelling an absent (`undefined`) property. -/
structure MetricObj where
  bucket : Option String := none
  authInfo : Option AuthInfo := none
  byteLength : Option Int := none
  newByteLength : Option Int := none
  oldByteLength : Option Int := none
  numberOfObjects : Option Int := none
deriving Repr

/-- The payload object handed to `utapi.pushMetric`; `accountId = none`
models the `undefined` left when no `authInfo` was supplied. -/
structure PushPayload where
  bucket : Option String
  accountId : Option String
  byteLength : Option Int
  newByteLength : Option Int
  oldByteLength : Option Int
  numberOfObjects : Option Int
deriving Repr

/-- The single call `pushMetric` issues on the external client:
`utapi.pushMetric(action, log.getSerializedUids(), payload)`. -/
structure PushCall where
  action : String
  reqUids : String
  payload : PushPayload
deriving Repr

/-- `pushMetric(action, log, metricObj)`: resolve `accountId` from
`authInfo` when present, destructure the remaining fields unchanged, and
invoke the external client (modelled as returning the call made).
`serializedUids` stands for `log.getSerializedUids()`. -/
def pushMetric (action : String) (serializedUids : String) (metricObj : MetricObj) :
    PushCall :=
  let accountId : Option String :=
    match metricObj.authInfo with
    | some a => some a.getCanonicalID
    | none => none
  { action := action
    reqUids := serializedUids
    payload :=
      { bucket := metricObj.bucket
        accountId := accountId
        byteLength := metricObj.byteLength
        newByteLength := metricObj.newByteLength
        oldByteLength := metricObj.oldByteLength
        numberOfObjects := metricObj.numberOfObjects } }

/-! ## Helper lemmas -/

/-- The split never produces the empty list of segments. -/
theorem splitCommaAux_ne_nil (l : List Char) : splitCommaAux l ≠ [] := by
  induction l with
  | nil => simp [splitCommaAux]
  | cons c cs ih =>
    by_cases hc : c = ','
    · simp [splitCommaAux, hc]
    · simp only [splitCommaAux, if_neg hc]
      cases h : splitCommaAux cs with
      | nil => simp
      | cons a t => simp

/-- The number of segments is the comma count plus one. -/
theorem splitCommaAux_length (l : List Char) :
    (splitCommaAux l).length = l.count ',' + 1 := by
  induction l with
  | nil => simp [splitCommaAux]
  | cons c cs ih =>
    by_cases hc : c = ','
    · simp [splitCommaAux, hc, List.count_cons, ih]
    · simp only [splitCommaAux, if_neg hc]
      cases h : splitCommaAux cs with
      | nil => exact absurd h (splitCommaAux_ne_nil cs)
      | cons a t =>
        simp only [List.length_cons]
        rw [h] at ih
        simp only [List.length_cons] at ih
        simp [List.count_cons, hc, ih]

/-- Prepending a character to the first segment prepends it to the join. -/
theorem intercalate_cons_head (c : Char) (a : List Char) (t : List (List Char)) :
    List.intercalate [','] ((c :: a) :: t) = c :: List.intercalate [','] (a :: t) := by
  cases t <;> simp [List.intercalate, List.intersperse]

/-- Joining the segments back with commas restores the original characters:
the split preserves order and every segment, empty ones included. -/
theorem splitCommaAux_intercalate (l : List Char) :
    List.intercalate [','] (splitCommaAux l) = l := by
  induction l with
  | nil => simp [splitCommaAux, List.intercalate]
  | cons c cs ih =>
    by_cases hc : c = ','
    · subst hc
      simp only [splitCommaAux, if_pos rfl]
      cases h : splitCommaAux cs with
      | nil => exact absurd h (splitCommaAux_ne_nil cs)
      | cons a t =>
        rw [h] at ih
        simp [List.intercalate] at ih ⊢
        simpa using ih
    · simp only [splitCommaAux, if_neg hc]
      cases h : splitCommaAux cs with
      | nil => exact absurd h (splitCommaAux_ne_nil cs)
      | cons a t =>
        rw [h] at ih
        rw [intercalate_cons_head, ih]

/-- The comma split of a string is never the empty list. -/
theorem jsSplitComma_ne_nil (s : String) : jsSplitComma s ≠ [] := by
  unfold jsSplitComma
  intro h
  exact splitCommaAux_ne_nil s.toList (List.map_eq_nil_iff.mp h)

/-- In recent mode the time range is empty and start/end are never read. -/
theorem computeTimeRange_recent (c : CommanderOpts) (hrec : c.recent = true) :
    computeTimeRange c = .ok [] := by
  simp [computeTimeRange, hrec]

/-- Inversion: a successfully computed time range is empty in recent mode
and has one or two entries otherwise. -/
theorem computeTimeRange_ok_inv (c : CommanderOpts) (tr : List Int)
    (h : computeTimeRange c = .ok tr) :
    (c.recent = true ∧ tr = []) ∨
      (c.recent = false ∧ (tr.length = 1 ∨ tr.length = 2)) := by
  unfold computeTimeRange at h
  by_cases hrec : c.recent = true
  · left
    rw [if_pos hrec] at h
    injection h with h
    exact ⟨hrec, h.symm⟩
  · right
    have hrec' : c.recent = false := Bool.not_eq_true _ ▸ Bool.eq_false_iff.mpr hrec
    rw [if_neg hrec] at h
    refine ⟨hrec', ?_⟩
    split at h
    · exact absurd h (by simp)
    · split at h
      · exact absurd h (by simp)
      · split at h
        · split at h
          · exact absurd h (by simp)
          · split at h
            · exact absurd h (by simp)
            · injection h with h
              right
              rw [← h]
              rfl
        · injection h with h
          left
          rw [← h]
          rfl

/-- Inversion of a run that reached the transport: the metric passed the
validity check, the time range was validated, and the request is exactly
the `_listMetrics` call on the validated pieces. -/
theorem listMetricsRun_ok_inv (mt : Option String) (c : CommanderOpts)
    (req : SentRequest) (h : listMetricsRun mt c = .ok req) :
    (mt = some "buckets" ∨ c.metric = some "buckets" ∨ c.metric = some "accounts")
    ∧ ∃ tr, computeTimeRange c = .ok tr ∧
        req = listMetricsInner (c.host.getD "") (c.port.getD "")
          (pickedMetric mt c)
          (jsSplitComma ((getMetricField c (pickedMetric mt c)).getD ""))
          tr (c.accessKey.getD "") (c.secretKey.getD "")
          c.verbose c.recent c.ssl := by
  unfold listMetricsRun at h
  split at h
  · exact absurd h (by simp)
  · next hcond =>
    split at h
    · exact absurd h (by simp)
    · split at h
      · exact absurd h (by simp)
      · next tr htr =>
        refine ⟨?_, tr, htr, ?_⟩
        · push_neg at hcond
          by_cases hmt : mt = some "buckets"
          · exact Or.inl hmt
          · by_cases hb : c.metric = some "buckets"
            · exact Or.inr (Or.inl hb)
            · exact Or.inr (Or.inr (hcond hmt hb))
        · injection h with h
          exact h.symm

/-- The metric validity check leaves only `buckets` and `accounts` as
possible picked metrics. -/
theorem pickedMetric_valid (mt : Option String) (c : CommanderOpts)
    (hm : mt = some "buckets" ∨ c.metric = some "buckets" ∨
      c.metric = some "accounts") :
    pickedMetric mt c = "buckets" ∨ pickedMetric mt c = "accounts" := by
  unfold pickedMetric
  rcases hm with h | h | h
  · simp [h]
  · by_cases hmt : mt = some "buckets" <;> simp [hmt, h]
  · by_cases hmt : mt = some "buckets" <;> simp [hmt, h]

/-- In recent mode the run is entirely independent of the supplied
`start` and `end` option values. -/
theorem listMetricsRun_recent_ignores (mt : Option String) (c : CommanderOpts)
    (s e : Option String) (hrec : c.recent = true) :
    listMetricsRun mt { c with start := s, endOpt := e } = listMetricsRun mt c := by
  simp [listMetricsRun, requiredList, computeTimeRange, pickedMetric,
    getMetricField, hrec]

/-! ## Claims -/

/-- C6: splitting a comma-separated resource string yields `count(',') + 1`
segments, joins back to the original string (so order and empty segments
are preserved unchanged), and in particular `"a,,b"` yields `["a","","b"]`. -/
theorem C6_split_preserves_segments :
    (∀ s : String, (jsSplitComma s).length = s.toList.count ',' + 1)
    ∧ (∀ s : String, List.intercalate [','] (splitCommaAux s.toList) = s.toList)
    ∧ jsSplitComma "a,,b" = ["a", "", "b"] := by
  refine ⟨fun s => ?_, fun s => splitCommaAux_intercalate s.toList, by decide⟩
  unfold jsSplitComma
  rw [List.length_map]
  exact splitCommaAux_length s.toList

/-- C8: every request `_listMetrics` constructs uses method POST, the
action `ListRecentMetrics` exactly when `recent` is set and `ListMetrics`
otherwise in the path `/{metric}?Action={action}`, and carries the
`content-type: application/json` and `cache-control: no-cache` headers. -/
theorem C8_request_shape (host port metric : String) (metricType : List String)
    (timeRange : List Int) (accessKey secretKey : String)
    (verbose recent ssl : Bool) :
    (listMetricsInner host port metric metricType timeRange accessKey secretKey
      verbose recent ssl).method = "POST"
    ∧ (listMetricsInner host port metric metricType timeRange accessKey secretKey
      verbose recent ssl).path =
        "/" ++ metric ++ "?Action=" ++
          (if recent then "ListRecentMetrics" else "ListMetrics")
    ∧ ("content-type", "application/json") ∈
        (listMetricsInner host port metric metricType timeRange accessKey secretKey
          verbose recent ssl).headers
    ∧ ("cache-control", "no-cache") ∈
        (listMetricsInner host port metric metricType timeRange accessKey secretKey
          verbose recent ssl).headers := by
  refine ⟨rfl, rfl, ?_, ?_⟩ <;> simp [listMetricsInner]

/-- C9: the push-adapter payload has no `accountId` when the event carries
no identity object, equals the identity's canonical id when it does, and
passes `bucket`, `byteLength`, `newByteLength`, `oldByteLength` and
`numberOfObjects` through unchanged (absent stays absent). -/
theorem C9_push_payload (action uids : String) (m : MetricObj) :
    (m.authInfo = none → (pushMetric action uids m).payload.accountId = none)
    ∧ (∀ a : AuthInfo, m.authInfo = some a →
        (pushMetric action uids m).payload.accountId = some a.getCanonicalID)
    ∧ (pushMetric action uids m).payload.bucket = m.bucket
    ∧ (pushMetric action uids m).payload.byteLength = m.byteLength
    ∧ (pushMetric action uids m).payload.newByteLength = m.newByteLength
    ∧ (pushMetric action uids m).payload.oldByteLength = m.oldByteLength
    ∧ (pushMetric action uids m).payload.numberOfObjects = m.numberOfObjects := by
  refine ⟨fun h => ?_, fun a h => ?_, rfl, rfl, rfl, rfl, rfl⟩ <;>
    simp [pushMetric, h]

/-- C9 witness: both hypotheses discharged on concrete events — no identity
object gives no account id, and an identity with canonical id ACCT123 gives
account id ACCT123. -/
theorem C9_push_payload_witness :
    (pushMetric "putObject" "uid1" { bucket := some "b" }).payload.accountId = none
    ∧ (pushMetric "putObject" "uid1"
        { authInfo := some { canonicalID := "ACCT123" } }).payload.accountId =
          some "ACCT123" :=
  ⟨(C9_push_payload "putObject" "uid1" { bucket := some "b" }).1 rfl,
    (C9_push_payload "putObject" "uid1"
      { authInfo := some { canonicalID := "ACCT123" } }).2.1
        { canonicalID := "ACCT123" } rfl⟩

/-- C10: the response body's parse result is examined before the status
code, so an invalid-JSON body (a thrown `JSON.parse`) ends the handler for
every status code — non-2xx included — and the log-and-exit-1 branch is
never reached. -/
theorem C10_parse_before_status (statusCode : Nat) :
    handleEnd statusCode none = .parseError
    ∧ ∀ (b : Json) (code : Nat), handleEnd statusCode none ≠ .logExit statusCode b code := by
  exact ⟨rfl, fun b code h => by simp [handleEnd] at h⟩

/-- C7: on a response whose body parses, a status in `[200, 300)` writes
the body pretty-printed with indent 2 and then a newline to stdout and
exits 0; any other status logs the status code with the parsed body and
exits 1. -/
theorem C7_response_dispatch (statusCode : Nat) (j : Json) :
    (200 ≤ statusCode → statusCode < 300 →
      handleEnd statusCode (some j) = .stdoutExit [stringifyIndent j, "\n"] 0)
    ∧ (¬(200 ≤ statusCode ∧ statusCode < 300) →
      handleEnd statusCode (some j) = .logExit statusCode j 1) := by
  constructor
  · intro h1 h2
    simp [handleEnd, h1, h2]
  · intro h
    simp [handleEnd, h]

/-- C7 witness: the theorem applied at status 200 (success branch) and at
status 403 (error branch) on the body `null`. -/
theorem C7_response_dispatch_witness :
    handleEnd 200 (some .null) = .stdoutExit [stringifyIndent .null, "\n"] 0
    ∧ handleEnd 403 (some .null) = .logExit 403 .null 1 :=
  ⟨(C7_response_dispatch 200 .null).1 (by norm_num) (by norm_num),
    (C7_response_dispatch 403 .null).2 (by norm_num)⟩

/-- C5: in generic invocation mode, a metric other than `buckets` or
`accounts` exits with code 1 (with the diagnostic logged before the usage
help) before any request is constructed: the run ends in `.error`, never
producing a `SentRequest`. -/
theorem C5_invalid_metric (mt : Option String) (c : CommanderOpts)
    (hgen : mt ≠ some "buckets")
    (h1 : c.metric ≠ some "buckets") (h2 : c.metric ≠ some "accounts") :
    listMetricsRun mt c = .error .metricInvalid
    ∧ ExitReason.message .metricInvalid = "metric must be buckets or accounts"
    ∧ ExitReason.exitCode .metricInvalid = 1 := by
  refine ⟨?_, rfl, rfl⟩
  simp [listMetricsRun, hgen, h1, h2]

def c5ex : CommanderOpts :=
  { accessKey := some "AK", secretKey := some "SK", metric := some "objects",
    buckets := some "b1", start := some "100",
    host := some "localhost", port := some "8100" }

/-- C5 witness: the theorem applied to a generic-mode invocation with
metric `objects`. -/
theorem C5_invalid_metric_witness :
    listMetricsRun none c5ex = .error .metricInvalid :=
  (C5_invalid_metric none c5ex (by decide) (by decide) (by decide)).1

/-- C4: outside recent mode, once the metric and required-option checks
have passed, a `start` that parses to `NaN` or to zero exits 1 with the
start-specific message, and a truthy `end` that parses to `NaN` or to zero
(after a valid `start`) exits 1 with the end-specific message; the literal
string `"0"` parses to zero, so a supplied `0` is rejected exactly like a
malformed value. -/
theorem C4_start_end_validation (mt : Option String) (c : CommanderOpts)
    (hrec : c.recent = false)
    (hmet : ¬(mt ≠ some "buckets" ∧ c.metric ≠ some "buckets" ∧
      c.metric ≠ some "accounts"))
    (hmiss : firstMissing (requiredList mt c (pickedMetric mt c)) = none) :
    ((jsParseInt10 (c.start.getD "") = none ∨
        jsParseInt10 (c.start.getD "") = some 0) →
      listMetricsRun mt c = .error .startNotNumber
      ∧ ExitReason.message .startNotNumber = "start must be a number"
      ∧ ExitReason.exitCode .startNotNumber = 1)
    ∧ (∀ n : Int, jsParseInt10 (c.start.getD "") = some n → n ≠ 0 →
        truthy c.endOpt = true →
        (jsParseInt10 (c.endOpt.getD "") = none ∨
          jsParseInt10 (c.endOpt.getD "") = some 0) →
        listMetricsRun mt c = .error .endNotNumber
        ∧ ExitReason.message .endNotNumber = "end must be a number"
        ∧ ExitReason.exitCode .endNotNumber = 1)
    ∧ jsParseInt10 "0" = some 0 := by
  have hrun : ∀ e : ExitReason, computeTimeRange c = .error e →
      listMetricsRun mt c = .error e := by
    intro e he
    unfold listMetricsRun
    rw [if_neg hmet, hmiss]
    simp [he]
  refine ⟨fun hbad => ⟨?_, rfl, rfl⟩, fun n hn hn0 hend hbad => ⟨?_, rfl, rfl⟩, rfl⟩
  · apply hrun
    rcases hbad with hb | hb <;> simp [computeTimeRange, hrec, hb]
  · apply hrun
    rcases hbad with hb | hb <;> simp [computeTimeRange, hrec, hn, hn0, hend, hb]

def c4ex : CommanderOpts :=
  { accessKey := some "AK", secretKey := some "SK", metric := some "buckets",
    buckets := some "b1", start := some "0",
    host := some "localhost", port := some "8100" }

/-- C4 witness: the theorem applied to an invocation whose `start` is the
literal string `0` — it passes the required-option presence check yet is
rejected as not a number. -/
theorem C4_start_end_validation_witness :
    listMetricsRun none c4ex = .error .startNotNumber :=
  ((C4_start_end_validation none c4ex rfl (by decide) rfl).1 (Or.inr rfl)).1

/-- C1: in recent mode the body written to the transport has no
`timeRange` key, and replacing the supplied `start`/`end` by any values at
all leaves the run unchanged (still succeeding with the same request): the
range options are silently ignored, not an error. -/
theorem C1_recent_no_timerange (mt : Option String) (c : CommanderOpts)
    (req : SentRequest) (hrec : c.recent = true)
    (h : listMetricsRun mt c = .ok req) :
    (∀ p ∈ req.bodyFields, p.fst ≠ "timeRange")
    ∧ ∀ s e : Option String,
        listMetricsRun mt { c with start := s, endOpt := e } = .ok req := by
  obtain ⟨hm, tr, htr, hreq⟩ := listMetricsRun_ok_inv mt c req h
  constructor
  · subst hreq
    rcases pickedMetric_valid mt c hm with hp | hp <;>
      simp [listMetricsInner, setField, hrec, hp]
  · intro s e
    rw [listMetricsRun_recent_ignores mt c s e hrec]
    exact h

def c1ex : CommanderOpts :=
  { accessKey := some "AK", secretKey := some "SK", metric := some "buckets",
    buckets := some "b1", host := some "localhost", port := some "8100",
    recent := true }

def c1req : SentRequest :=
  listMetricsInner "localhost" "8100" "buckets" (jsSplitComma "b1") []
    "AK" "SK" false true false

/-- C1 witness: the theorem applied to a concrete recent-mode invocation,
instantiated at `start = 999`, `end = 0` — values that would fail
validation outside recent mode — still reaching the transport with the
same request. -/
theorem C1_recent_no_timerange_witness :
    listMetricsRun none { c1ex with start := some "999", endOpt := some "0" } =
      .ok c1req :=
  (C1_recent_no_timerange none c1ex c1req rfl rfl).2 (some "999") (some "0")

/-- C3 counterexample: with `start = 200`, `end = 100` the run reaches the
transport with `timeRange = [200, 100]`, so the claimed invariant clause
`start <= end` does not hold of every request reaching the transport. -/
theorem C3_counterexample :
    (listMetricsRun none
      { accessKey := some "AK", secretKey := some "SK",
        metric := some "buckets", buckets := some "b1",
        start := some "200", endOpt := some "100",
        host := some "localhost", port := some "8100" }).toOption.map
        SentRequest.timeRange = some [200, 100]
    ∧ ¬((200 : Int) ≤ 100) := ⟨rfl, by norm_num⟩

/-- C3 (amended): every request reaching the transport has a non-empty
resource list, an empty `timeRange` in recent mode, and a one- or
two-entry `timeRange` otherwise; the code never compares `start` with
`end`, so no ordering clause holds. -/
theorem C3_amended_invariant (mt : Option String) (c : CommanderOpts)
    (req : SentRequest) (h : listMetricsRun mt c = .ok req) :
    req.resources ≠ []
    ∧ (c.recent = true → req.timeRange = [])
    ∧ (c.recent = false →
        req.timeRange.length = 1 ∨ req.timeRange.length = 2) := by
  obtain ⟨hm, tr, htr, hreq⟩ := listMetricsRun_ok_inv mt c req h
  subst hreq
  refine ⟨jsSplitComma_ne_nil _, ?_, ?_⟩
  · intro hrec
    rw [computeTimeRange_recent c hrec] at htr
    injection htr with htr
    simp [listMetricsInner, htr]
  · intro hrec
    rcases computeTimeRange_ok_inv c tr htr with ⟨h1, _⟩ | ⟨_, hlen⟩
    · rw [hrec] at h1
      cases h1
    · simpa [listMetricsInner] using hlen

def c3ok : CommanderOpts :=
  { accessKey := some "AK", secretKey := some "SK", metric := some "buckets",
    buckets := some "b1", start := some "100", endOpt := some "200",
    host := some "localhost", port := some "8100" }

def c3okReq : SentRequest :=
  listMetricsInner "localhost" "8100" "buckets" (jsSplitComma "b1") [100, 200]
    "AK" "SK" false false false

/-- C3 witness: the amended invariant applied to a concrete valid
non-recent invocation with both range endpoints. -/
theorem C3_amended_invariant_witness :
    c3okReq.timeRange.length = 1 ∨ c3okReq.timeRange.length = 2 :=
  (C3_amended_invariant none c3ok c3okReq rfl).2.2 rfl

def c2req : SentRequest :=
  listMetricsInner "localhost" "8100" "buckets" ["b1", "b2"] [100, 200]
    "AK" "SK" false false false

/-- C2 counterexample: the request built from `metric = buckets`,
`resources = [b1, b2]`, `recent = false`, `timeRange = [100, 200]` does not
serialize to the claimed string with the `buckets` key first. -/
theorem C2_counterexample :
    c2req.body ≠ "\x7b\"buckets\":[\"b1\",\"b2\"],\"timeRange\":[100,200]\x7d" := by
  decide

/-- C2 (amended): that request serializes to
`\x7b"timeRange":[100,200],"buckets":["b1","b2"]\x7d` — the same two keys
and values, but with `timeRange` first, since the code builds
`\x7b timeRange \x7d` and only then assigns the metric key. -/
theorem C2_amended_serialization :
    c2req.body = "\x7b\"timeRange\":[100,200],\"buckets\":[\"b1\",\"b2\"]\x7d" := by
  decide

end Utapi
